import Mathlib

/-!
Verification of the wireless-thermometer firmware core (scheduler, power-mode
arbitration, I2C bus engine, LEUART framed link, BLE circular buffer) against
its natural-language specification.  All definitions are shallow embeddings of
the C sources; machine integers are modelled as `Nat` with explicit masks where
overflow matters.
-/

namespace Thermo

/-- Width of the C `unsigned int` / `uint32_t` used by the scheduler and the
circular-buffer size counter. -/
def wordMask : Nat := 2 ^ 32 - 1

/-! ## Event scheduler (scheduler.c)

`event_scheduled` is a private `unsigned int`; the three operations are
modelled as pure functions on that word.  `__disable_irq`/`__enable_irq`
bracket the read-modify-write in the source and have no effect on the value. -/

/-- `add_scheduled_event` (scheduler.c:47-52): ORs the event bits into the
pending set. -/
def add_scheduled_event (event_scheduled event : Nat) : Nat :=
  event_scheduled ||| event

/-- `remove_scheduled_event` (scheduler.c:62-67): ANDs the pending set with the
32-bit complement of the event bits. -/
def remove_scheduled_event (event_scheduled event : Nat) : Nat :=
  event_scheduled &&& (event ^^^ wordMask)

/-- `get_scheduled_events` (scheduler.c:75-78): returns the pending set. -/
def get_scheduled_events (event_scheduled : Nat) : Nat :=
  event_scheduled

/-! ## BLE circular buffer (ble.c / ble.h)

`BLE_CIRCULAR_BUF` holds `char cbuf[CSIZE]`, a `uint8_t size_mask`, a
`uint32_t size` and two `uint32_t` cursors.  Bytes are modelled as `Nat`s;
`size` is kept inside `Nat` with the 32-bit wraparound of the C arithmetic
made explicit where it occurs. -/

/-- `CSIZE` (ble.h): capacity of the circular buffer. -/
def CSIZE : Nat := 64

structure BLE_CIRCULAR_BUF where
  cbuf : List Nat
  size_mask : Nat
  size : Nat
  read_ptr : Nat
  write_ptr : Nat
  deriving Repr, DecidableEq

/-- 32-bit wraparound of `(a - c)` as computed by C when a negative `int`
difference is converted back to `uint32_t` (`a < 2^32`). -/
def u32sub (a c : Nat) : Nat := (a + 2 ^ 32 - c % 2 ^ 32) % 2 ^ 32

/-- The 32-bit decrement `b - 1` of a `uint32_t`: zero wraps to `2^32 - 1`.
Written as a structural match so that applications reduce definitionally. -/
def u32dec : Nat → Nat
  | 0 => 4294967295
  | n + 1 => n

/-- `ble_circ_init` (ble.c:482-489).  The array contents are left at the
C translation unit's zero initialisation. -/
def ble_circ_init : BLE_CIRCULAR_BUF :=
  { cbuf := List.replicate CSIZE 0
    size_mask := CSIZE
    size := CSIZE
    read_ptr := 0
    write_ptr := 0 }

/-- `update_circ_wrtindex` (ble.c:619-622): advance the write cursor mod 64. -/
def update_circ_wrtindex (b : BLE_CIRCULAR_BUF) (update_by : Nat) : BLE_CIRCULAR_BUF :=
  { b with write_ptr := (b.write_ptr + update_by) % 64 }

/-- `update_circ_readindex` (ble.c:635-638): advance the read cursor mod 64. -/
def update_circ_readindex (b : BLE_CIRCULAR_BUF) (update_by : Nat) : BLE_CIRCULAR_BUF :=
  { b with read_ptr := (b.read_ptr + update_by) % 64 }

/-- `ble_circ_space` (ble.c:598-606): returns `ble_cbuf.size` truncated to the
`uint8_t` return type. -/
def ble_circ_space (b : BLE_CIRCULAR_BUF) : Nat := b.size % 256

/-- One iteration of the push loop body (ble.c:511-512 and 517-519): store a
byte at the write cursor, advance the cursor by one. -/
def writeByte (b : BLE_CIRCULAR_BUF) (c : Nat) : BLE_CIRCULAR_BUF :=
  update_circ_wrtindex { b with cbuf := b.cbuf.set b.write_ptr c } 1

/-- The `while(index != length)` loop of `ble_circ_push` (ble.c:515-520). -/
def writeBytes (b : BLE_CIRCULAR_BUF) (s : List Nat) : BLE_CIRCULAR_BUF :=
  s.foldl writeByte b

/-- `ble_circ_push` (ble.c:501-526).  `none` models the fatal
`EFM_ASSERT(false)` taken when `ble_cbuf.size < length`; otherwise the length
prefix and the payload are stored and the size counter is updated by the C
expression `ble_circ_space() - (length+1)` evaluated in 32-bit arithmetic. -/
def ble_circ_push (b : BLE_CIRCULAR_BUF) (string : List Nat) : Option BLE_CIRCULAR_BUF :=
  let length := string.length
  if b.size < length then none
  else
    let b2 := writeBytes (writeByte b length) string
    some { b2 with size := u32sub (ble_circ_space b2) (length + 1) }

/-- The `while(index != length)` loop of `ble_circ_pop` (ble.c:560-565):
read `n` bytes from the read cursor, advancing it. -/
def readBytes (b : BLE_CIRCULAR_BUF) : Nat → BLE_CIRCULAR_BUF × List Nat
  | 0 => (b, [])
  | n + 1 =>
    let c := b.cbuf.getD b.read_ptr 0
    let r := readBytes (update_circ_readindex b 1) n
    (r.1, c :: r.2)

/-- `ble_circ_pop` in test mode (ble.c:540-590 with `test = true`): the first
component is the returned `bool` (`true` = nothing popped), the second the
updated buffer, the third the payload copied into `result_str`.  `txidle`
models the `LEUART_STATUS_TXIDLE` bit read at entry. -/
def ble_circ_pop_test (txidle : Bool) (b : BLE_CIRCULAR_BUF) :
    Bool × BLE_CIRCULAR_BUF × List Nat :=
  if !txidle then (true, b, [])
  else if b.size = CSIZE then (true, b, [])
  else
    let length := b.cbuf.getD b.read_ptr 0
    let r := readBytes (update_circ_readindex b 1) length
    (false, { r.1 with size := (ble_circ_space r.1 + length + 1) % 2 ^ 32 }, r.2)

/-- Number of reads of the transmitter's busy flag that return `true` before
one returns `false`, given the successive values the flag takes; `none` when
the flag never reads `false` (the `while(leuart_tx_busy(LEUART0));` loop at
ble.c:581 never exits). -/
def busyWaitReadsTrue : List Bool → Option Nat
  | [] => none
  | b :: rest => if b then (busyWaitReadsTrue rest).map (· + 1) else some 0

/-- `ble_circ_pop` in operational mode (ble.c:540-590 with `test = false`):
after reading a packet it hands the payload to `leuart_start` and then busy
waits on `leuart_tx_busy`.  `busyTrace` lists the successive values of the
busy flag observed by that loop; the result records the popped payload and
how many polls of the loop observed `true`.  `none` models the loop never
exiting. -/
def ble_circ_pop_oper (txidle : Bool) (busyTrace : List Bool) (b : BLE_CIRCULAR_BUF) :
    Option (Bool × BLE_CIRCULAR_BUF × List Nat × Nat) :=
  if !txidle then some (true, b, [], 0)
  else if b.size = CSIZE then some (true, b, [], 0)
  else
    let length := b.cbuf.getD b.read_ptr 0
    let r := readBytes (update_circ_readindex b 1) length
    match busyWaitReadsTrue busyTrace with
    | none => none
    | some polls =>
        some (false, { r.1 with size := (ble_circ_space r.1 + length + 1) % 2 ^ 32 },
          r.2, polls)

/-- The three test payloads written by `circular_buff_test` (ble.c:398-406):
lengths 50, 25 and 5, with bytes `i+1`, `i+20` and `i+35`. -/
def testStr1 : List Nat := (List.range 50).map (fun i => i + 1)

/-- Second test payload of `circular_buff_test`. -/
def testStr2 : List Nat := (List.range 25).map (fun i => i + 20)

/-- Third test payload of `circular_buff_test`. -/
def testStr3 : List Nat := (List.range 5).map (fun i => i + 35)

/-- A scripted sequence of circular-buffer operations: a push of a payload, or
a test-mode pop with the transmitter idle. -/
inductive QOp where
  | push : List Nat → QOp
  | popT : QOp
  deriving Repr, DecidableEq

/-- Run a script of queue operations from a buffer state, recording for each
pop its returned `bool` and the payload it delivered; `none` when some push
hits the fatal assertion. -/
def runQOps : BLE_CIRCULAR_BUF → List QOp → Option (BLE_CIRCULAR_BUF × List (Bool × List Nat))
  | b, [] => some (b, [])
  | b, QOp.push s :: rest =>
    match ble_circ_push b s with
    | none => none
    | some b2 => runQOps b2 rest
  | b, QOp.popT :: rest =>
    let r := ble_circ_pop_test true b
    match runQOps r.2.1 rest with
    | none => none
    | some p => some (p.1, (r.1, r.2.2) :: p.2)

/-- Total number of buffer bytes occupied by a list of queued packets: each
packet costs its payload length plus one length-prefix byte. -/
def queuedBytes (ps : List (List Nat)) : Nat := (ps.map (fun p => p.length + 1)).sum

/-- The byte stream the queued packets occupy in the buffer, oldest first:
each packet is its length prefix followed by its payload. -/
def packetStream (ps : List (List Nat)) : List Nat :=
  (ps.map (fun p => p.length :: p)).flatten

/-- The buffer state `b` represents the queued packet list `ps`: the backing
array has the right length, both cursors are in bounds, the remaining-space
counter equals the capacity 64 minus the unconsumed bytes, the write cursor
sits `queuedBytes ps` past the read cursor, and the buffer holds the packet
stream at the read cursor. -/
def QueueRep (b : BLE_CIRCULAR_BUF) (ps : List (List Nat)) : Prop :=
  b.cbuf.length = 64 ∧ b.read_ptr < 64 ∧ b.write_ptr < 64 ∧
  queuedBytes ps ≤ 64 ∧
  b.size = 64 - queuedBytes ps ∧
  b.write_ptr = (b.read_ptr + queuedBytes ps) % 64 ∧
  ∀ j, j < queuedBytes ps →
    b.cbuf.getD ((b.read_ptr + j) % 64) 0 = (packetStream ps).getD j 0

instance (b : BLE_CIRCULAR_BUF) (ps : List (List Nat)) : Decidable (QueueRep b ps) := by
  unfold QueueRep
  infer_instance

/-! ## Event bits and energy modes

`SI7021_READ_EVT = 0x8` is given by i2c.h:31 and `EM0..EM4`,
`I2C_EM_BLOCK = EM2` (i2c.h), `LEUART_EM = EM3` (leuart.h) by the headers in
the sources.  The remaining event masks are defined in app.h, which is not
among the sources; they are modelled as distinct single bits, which is all the
spec requires of them. -/

/-- Modelled from the spec: timer-underflow event bit (app.h is missing). -/
def LETIMER0_UF_EVT : Nat := 0x1

/-- Modelled from the spec: timer COMP0 event bit (app.h is missing). -/
def LETIMER0_COMP0_EVT : Nat := 0x2

/-- Modelled from the spec: timer COMP1 event bit (app.h is missing). -/
def LETIMER0_COMP1_EVT : Nat := 0x4

/-- `SI7021_READ_EVT` (i2c.h:31): the bus-read-complete event bit, 0x8. -/
def SI7021_READ_EVT : Nat := 0x8

/-- Modelled from the spec: boot-up event bit (app.h is missing). -/
def BOOT_UP_EVT : Nat := 0x10

/-- Modelled from the spec: link-tx-complete event bit (app.h is missing). -/
def LEUART_TX_EVT : Nat := 0x20

/-- Modelled from the spec: link-rx-complete event bit (app.h is missing). -/
def LEUART_RX_EVT : Nat := 0x40

/-- Energy modes EM0..EM4 (sleep_routines.h:23-27). -/
def EM2 : Nat := 2

/-- `LEUART_EM = EM3` (leuart.h:21). -/
def EM3 : Nat := 3

/-- `I2C_EM_BLOCK = EM2` (i2c.h:29). -/
def I2C_EM_BLOCK : Nat := EM2

/-- `LEUART_EM` (leuart.h:21). -/
def LEUART_EM : Nat := EM3

/-! ## Power-mode arbitration

sleep_routines.c is not among the sources (only sleep_routines.h is); the
block/unblock operations are modelled from the spec. -/

/-- Modelled from the spec: sleep_routines.c is missing; spec section 4.2 says
`block(level)` increments `count[level]`.  The table is a list of the five
per-mode reference counts. -/
def sleep_block_mode (st : List Nat) (em : Nat) : List Nat :=
  st.set em (st.getD em 0 + 1)

/-- Modelled from the spec: sleep_routines.c is missing; spec section 4.2 says
`unblock(level)` decrements `count[level]` (and must not drive it below zero;
no modelled trace reaches the underflow assert). -/
def sleep_unblock_mode (st : List Nat) (em : Nat) : List Nat :=
  st.set em (st.getD em 0 - 1)

/-! ## I2C bus transaction engine (i2c.c / i2c.h)

The payload struct and the four interrupt handlers are embedded directly; bus
register writes (CMD/TXDATA) configure the external device and are not part of
the engine state.  `events` records the scheduler events the engine posts,
`sleep` the power-mode block table, `fatal` whether an `EFM_ASSERT(false)`
was reached.  The C enumerator spelled `initialize` in i2c.h is rendered
`init_st` because `initialize` is a Lean keyword. -/

inductive i2c_defined_states where
  | init_st
  | send_measure_cmd
  | send_read_cmd
  | receive_data
  | end_process
  deriving Repr, DecidableEq

structure I2C_PAYLOAD_STRUCT where
  device_address : Nat
  current_state : i2c_defined_states
  bytes : Nat
  data : Nat
  cmd : Nat
  deriving Repr, DecidableEq

structure I2CState where
  payload : I2C_PAYLOAD_STRUCT
  events : List Nat
  sleep : List Nat
  fatal : Bool
  deriving Repr, DecidableEq

/-- The four interrupt-sourced signals of the engine; `rxdatav` carries the
byte sitting in the RXDATA register. -/
inductive I2CSignal where
  | ack
  | nack
  | rxdatav : Nat → I2CSignal
  | mstop
  deriving Repr, DecidableEq

/-- `I2C_Start` (i2c.c:238-257): blocks EM2, initialises the payload, and puts
the engine in its first state.  `data0` is the current content of the caller's
destination word, which `I2C_Start` does not clear. -/
def I2C_Start (dev bytes cmd data0 : Nat) (sleep : List Nat) : I2CState :=
  { payload :=
      { device_address := dev
        current_state := i2c_defined_states.init_st
        bytes := bytes
        data := data0
        cmd := cmd }
    events := []
    sleep := sleep_block_mode sleep I2C_EM_BLOCK
    fatal := false }

/-- `I2C_ACK` (i2c.c:263-290). -/
def I2C_ACK (st : I2CState) : I2CState :=
  match st.payload.current_state with
  | i2c_defined_states.init_st =>
      { st with payload := { st.payload with
          current_state := i2c_defined_states.send_measure_cmd } }
  | i2c_defined_states.send_measure_cmd =>
      { st with payload := { st.payload with
          current_state := i2c_defined_states.send_read_cmd } }
  | i2c_defined_states.send_read_cmd =>
      { st with payload := { st.payload with
          current_state := i2c_defined_states.receive_data } }
  | _ => { st with fatal := true }

/-- `I2C_NACK` (i2c.c:296-321): in `send_read_cmd` it re-issues the repeated
start and read address and stays in the same state; every other state is a
fatal assertion. -/
def I2C_NACK (st : I2CState) : I2CState :=
  match st.payload.current_state with
  | i2c_defined_states.send_read_cmd => st
  | _ => { st with fatal := true }

/-- `I2C_RXDATAV` (i2c.c:327-362): decrement the remaining count (32-bit
arithmetic); while bytes remain store `RXDATA << 8` and ACK, on the last byte
OR in `RXDATA`, NACK, stop, and move to `end_process`. -/
def I2C_RXDATAV (rxdata : Nat) (st : I2CState) : I2CState :=
  match st.payload.current_state with
  | i2c_defined_states.receive_data =>
      let bytes2 := u32dec st.payload.bytes
      if bytes2 > 0 then
        { st with payload :=
            { st.payload with
              bytes := bytes2
              data := rxdata <<< 8 } }
      else
        { st with payload :=
            { st.payload with
              bytes := bytes2
              data := st.payload.data ||| rxdata
              current_state := i2c_defined_states.end_process } }
  | _ => { st with fatal := true }

/-- `I2C_MSTOP` (i2c.c:368-393): in `end_process` it posts the read event,
releases the EM2 block and resets the engine to its first state. -/
def I2C_MSTOP (st : I2CState) : I2CState :=
  match st.payload.current_state with
  | i2c_defined_states.end_process =>
      { st with
        payload := { st.payload with
          current_state := i2c_defined_states.init_st }
        events := st.events ++ [SI7021_READ_EVT]
        sleep := sleep_unblock_mode st.sleep I2C_EM_BLOCK }
  | _ => { st with fatal := true }

/-- Dispatch of one interrupt signal to its handler, as in `I2C0_IRQHandler`
(i2c.c:156-186); a machine that has hit a fatal assertion stays halted. -/
def i2cStep (st : I2CState) : I2CSignal → I2CState
  | I2CSignal.ack => if st.fatal then st else I2C_ACK st
  | I2CSignal.nack => if st.fatal then st else I2C_NACK st
  | I2CSignal.rxdatav b => if st.fatal then st else I2C_RXDATAV b st
  | I2CSignal.mstop => if st.fatal then st else I2C_MSTOP st

/-- Feed a sequence of interrupt signals to the engine. -/
def i2cRun (st : I2CState) (sigs : List I2CSignal) : I2CState :=
  sigs.foldl i2cStep st

/-- Most-significant-byte-first interpretation of a byte sequence (the spec's
byte-ordering notion for the destination buffer). -/
def msbFirst (bs : List Nat) : Nat := bs.foldl (fun acc b => acc * 256 + b) 0

/-! ## LEUART framed link driver (leuart.c / leuart.h)

`lePayload` and the five interrupt handlers are embedded directly.  The
hardware side of the peripheral is modelled by the interrupt-enable bits, the
latched STARTF/SIGF interrupt flags (cleared by the IFC write at the top of
`LEUART0_IRQHandler`), the RXBLOCK gate, and a one-byte receive holding
register `rxbuf` whose fullness is the level-triggered RXDATAV flag (it stays
asserted until the handler reads RXDATA).  `txout` records the bytes written
to TXDATA, `events` the scheduler events posted, `sleep` the power-mode block
table. -/

/-- `STARTF_CHAR` (leuart.h:22): the start-frame marker, the byte of the
character 35. -/
def STARTF_CHAR : Nat := 35

/-- `SIGF_CHAR` (leuart.h:23): the stop-frame marker, the byte of the
character 63. -/
def SIGF_CHAR : Nat := 63

inductive leuart_tx_states where
  | begin
  | transmit
  | transmit_done
  deriving Repr, DecidableEq

inductive leuart_rx_states where
  | idle
  | start
  | receive
  | done
  deriving Repr, DecidableEq

structure LEUART_PAYLOAD_STRUCT where
  state : leuart_tx_states
  count : Nat
  str : List Nat
  index : Nat
  txbusy : Bool
  rx_state : leuart_rx_states
  received_str : List Nat
  rx_count : Nat
  startf : Nat
  sigf : Nat
  rxbusy : Bool
  deriving Repr, DecidableEq

structure LeuartState where
  lePayload : LEUART_PAYLOAD_STRUCT
  ien_startf : Bool
  ien_rxdatav : Bool
  ien_sigf : Bool
  ien_txbl : Bool
  ien_txc : Bool
  if_startf : Bool
  if_sigf : Bool
  rxblocken : Bool
  rxbuf : Option Nat
  txout : List Nat
  events : List Nat
  sleep : List Nat
  fatal : Bool
  deriving Repr, DecidableEq

/-- The receiver-relevant state established by `leuart_open`
(leuart.c:140-167): start/stop markers programmed, RXBLOCK armed, STARTF the
only enabled interrupt, receive machine idle, and one LEUART_EM sleep block
taken (leuart.c:158, "Block sleep here instead of leuart_start"). -/
def leuart_open_state (t : List Nat) : LeuartState :=
  { lePayload :=
      { state := leuart_tx_states.begin
        count := 0
        str := []
        index := 0
        txbusy := false
        rx_state := leuart_rx_states.idle
        received_str := List.replicate 80 0
        rx_count := 0
        startf := STARTF_CHAR
        sigf := SIGF_CHAR
        rxbusy := false }
    ien_startf := true
    ien_rxdatav := false
    ien_sigf := false
    ien_txbl := false
    ien_txc := false
    if_startf := false
    if_sigf := false
    rxblocken := true
    rxbuf := none
    txout := []
    events := []
    sleep := sleep_block_mode t LEUART_EM
    fatal := false }

/-- `leuart_start` (leuart.c:234-246): block LEUART_EM, mark the transmitter
busy, load the string, clear a stale TXC flag and enable only TXBL. -/
def leuart_start (st : LeuartState) (string : List Nat) (string_len : Nat) :
    LeuartState :=
  { st with
    lePayload := { st.lePayload with
      txbusy := true
      state := leuart_tx_states.transmit
      count := string_len
      index := 0
      str := string }
    ien_txbl := true
    sleep := sleep_block_mode st.sleep LEUART_EM }

/-- `TXBL_Interrupt` (leuart.c:335-363): in `transmit`, send the next byte
while any remain, and when the count reaches zero switch to waiting for TXC. -/
def TXBL_Interrupt (st : LeuartState) : LeuartState :=
  match st.lePayload.state with
  | leuart_tx_states.transmit =>
      let st1 :=
        if st.lePayload.count > 0 then
          { st with
            lePayload := { st.lePayload with
              count := st.lePayload.count - 1
              index := st.lePayload.index + 1 }
            txout := st.txout ++ [st.lePayload.str.getD st.lePayload.index 0] }
        else st
      if st1.lePayload.count = 0 then
        { st1 with
          lePayload := { st1.lePayload with
            state := leuart_tx_states.transmit_done }
          ien_txbl := false
          ien_txc := true }
      else st1
  | _ => { st with fatal := true }

/-- `TXC_Interrupt` (leuart.c:372-392): in `transmit_done`, release the
LEUART_EM block, post the tx-done event and clear the busy flag. -/
def TXC_Interrupt (st : LeuartState) : LeuartState :=
  match st.lePayload.state with
  | leuart_tx_states.transmit_done =>
      { st with
        lePayload := { st.lePayload with txbusy := false }
        events := st.events ++ [LEUART_TX_EVT]
        sleep := sleep_unblock_mode st.sleep LEUART_EM }
  | _ => { st with fatal := true }

/-- `STARTF_Interrupt` (leuart.c:404-436): from idle and not busy, open the
frame: mark the receiver busy, reset the accumulation cursor, enable the
RXDATAV and SIGF interrupts. -/
def STARTF_Interrupt (st : LeuartState) : LeuartState :=
  match st.lePayload.rx_state with
  | leuart_rx_states.idle =>
      if st.lePayload.rxbusy = false then
        { st with
          lePayload := { st.lePayload with
            rxbusy := true
            rx_count := 0
            rx_state := leuart_rx_states.start }
          ien_rxdatav := true
          ien_sigf := true }
      else { st with fatal := true }
  | _ => { st with fatal := true }

/-- `RXDATAV_Interrupt` (leuart.c:447-477): in `start` it only changes state
(without reading RXDATA, so the byte is delivered again); in `receive` it
reads RXDATA into the accumulation buffer and advances the cursor. -/
def RXDATAV_Interrupt (st : LeuartState) : LeuartState :=
  match st.lePayload.rx_state with
  | leuart_rx_states.start =>
      { st with lePayload := { st.lePayload with
          rx_state := leuart_rx_states.receive } }
  | leuart_rx_states.receive =>
      { st with
        lePayload := { st.lePayload with
          received_str :=
            st.lePayload.received_str.set st.lePayload.rx_count (st.rxbuf.getD 0)
          rx_count := st.lePayload.rx_count + 1 }
        rxbuf := none }
  | _ => { st with fatal := true }

/-- `SIGF_Interrupt` (leuart.c:488-517): in `receive`, write the terminator at
the cursor, disable SIGF and RXDATAV, re-arm RXBLOCK, post the rx-done event
and return to idle. -/
def SIGF_Interrupt (st : LeuartState) : LeuartState :=
  match st.lePayload.rx_state with
  | leuart_rx_states.receive =>
      { st with
        lePayload := { st.lePayload with
          received_str := st.lePayload.received_str.set st.lePayload.rx_count 0
          rx_count := st.lePayload.rx_count + 1
          rx_state := leuart_rx_states.idle
          rxbusy := false }
        ien_sigf := false
        ien_rxdatav := false
        rxblocken := true
        events := st.events ++ [LEUART_RX_EVT] }
  | _ => { st with fatal := true }

/-- One invocation of `LEUART0_IRQHandler` (leuart.c:191-219) for the receive
sources: the pending set is latched once (`IF & IEN`), the latched STARTF and
SIGF flags are cleared by the IFC write, then STARTF, RXDATAV and SIGF are
serviced in that order.  RXDATAV is level-triggered: it is pending whenever
the holding register is full. -/
def rxIrqStep (st : LeuartState) : LeuartState :=
  let i_startf := st.if_startf && st.ien_startf
  let i_rxdatav := st.rxbuf.isSome && st.ien_rxdatav
  let i_sigf := st.if_sigf && st.ien_sigf
  let st1 := { st with
    if_startf := st.if_startf && !i_startf
    if_sigf := st.if_sigf && !i_sigf }
  let st2 := if i_startf then STARTF_Interrupt st1 else st1
  let st3 := if i_rxdatav then RXDATAV_Interrupt st2 else st2
  if i_sigf then SIGF_Interrupt st3 else st3

/-- The interrupt controller re-enters the handler while any enabled receive
source stays pending (in particular while the unread holding register keeps
RXDATAV asserted); bounded by fuel, which every trace below leaves unused. -/
def rxIrqLoop : Nat → LeuartState → LeuartState
  | 0, st => st
  | fuel + 1, st =>
      if !st.fatal &&
          ((st.if_startf && st.ien_startf) || (st.rxbuf.isSome && st.ien_rxdatav) ||
            (st.if_sigf && st.ien_sigf)) then
        rxIrqLoop fuel (rxIrqStep st)
      else st

/-- Arrival of one byte on the wire: while RXBLOCK is armed everything but the
start marker is discarded; a start marker raises STARTF and clears RXBLOCK
(the SFUBRX feature, leuart.c:150), a stop marker raises SIGF; the byte lands
in the holding register and the interrupt handler runs while sources are
pending. -/
def feedByte (st : LeuartState) (b : Nat) : LeuartState :=
  if st.rxblocken && b ≠ STARTF_CHAR then st
  else
    let st1 :=
      if b = STARTF_CHAR then
        { st with rxblocken := false, if_startf := true, rxbuf := some b }
      else if b = SIGF_CHAR then { st with if_sigf := true, rxbuf := some b }
      else { st with rxbuf := some b }
    rxIrqLoop 8 st1

/-- Feed a sequence of received bytes. -/
def leuartFeed (st : LeuartState) (bytes : List Nat) : LeuartState :=
  bytes.foldl feedByte st

/-- `leuart_tx_busy` (leuart.c:528-531): report the transmitter busy flag. -/
def leuart_tx_busy (st : LeuartState) : Bool :=
  st.lePayload.txbusy

/-- The TXBL interrupt re-fires while the transmit machine keeps it enabled
(the transmit buffer is empty again as soon as the byte moves to the shift
register); bounded by fuel. -/
def txPump : Nat → LeuartState → LeuartState
  | 0, st => st
  | fuel + 1, st =>
      if st.ien_txbl && !st.fatal then txPump fuel (TXBL_Interrupt st)
      else st

/-- The TXC interrupt fires once the last byte has left the shift register,
provided the machine enabled it. -/
def txFinish (st : LeuartState) : LeuartState :=
  if st.ien_txc && !st.fatal then TXC_Interrupt st else st

/-! ## Main loop event scan (main.c:79-113)

Each branch of the scan is guarded by one event bit and calls the matching
handler in app.c; the effect of a handler on the pending set is its
`remove_scheduled_event` call (app.c:123, 138, 152, 169, 229, 259).  The
COMP0/COMP1 handlers additionally hit `EFM_ASSERT(false)`, but their
interrupts are never enabled (app.c:94-96), so those bits are never posted. -/

/-- The guarded branches of the main loop in source order: (guard bit, bit the
handler removes). -/
def mainScanBranches : List (Nat × Nat) :=
  [(LETIMER0_UF_EVT, LETIMER0_UF_EVT),
   (LETIMER0_COMP0_EVT, LETIMER0_COMP0_EVT),
   (LETIMER0_COMP1_EVT, LETIMER0_COMP1_EVT),
   (SI7021_READ_EVT, SI7021_READ_EVT),
   (BOOT_UP_EVT, BOOT_UP_EVT),
   (LEUART_TX_EVT, LEUART_TX_EVT)]

/-- One iteration of the main loop's fixed-priority scan, re-reading the
pending set before each guard as main.c does. -/
def mainLoopScan (pending : Nat) : Nat :=
  mainScanBranches.foldl
    (fun p br =>
      if get_scheduled_events p &&& br.1 ≠ 0 then remove_scheduled_event p br.2
      else p)
    pending

/-- Bits at or above the word width are absent from a machine word. -/
theorem testBit_of_word (x i : Nat) (h : x < 2 ^ 32) (hi : 32 ≤ i) :
    Nat.testBit x i = false :=
  Nat.testBit_lt_two_pow (Nat.lt_of_lt_of_le h (Nat.pow_le_pow_right (by decide) hi))

/-- The bit pattern of the all-ones 32-bit word. -/
theorem testBit_wordMask (i : Nat) : Nat.testBit wordMask i = decide (i < 32) :=
  Nat.testBit_two_pow_sub_one 32 i

/-- Claim C5: for every pending-event state `s` (a 32-bit word) and every event
bit `i < 32`: `peek` after `add` shows the bit set; a subsequent `remove`
clears it; `add` is idempotent on the pending state; and `remove` of a bit that
is not set is a silent no-op. -/
theorem scheduler_event_algebra (s i : Nat) (hs : s < 2 ^ 32) (hi : i < 32) :
    (get_scheduled_events (add_scheduled_event s (2 ^ i))).testBit i = true ∧
    (remove_scheduled_event (add_scheduled_event s (2 ^ i)) (2 ^ i)).testBit i = false ∧
    add_scheduled_event (add_scheduled_event s (2 ^ i)) (2 ^ i) =
      add_scheduled_event s (2 ^ i) ∧
    (s.testBit i = false → remove_scheduled_event s (2 ^ i) = s) := by
  refine ⟨?_, ?_, ?_, ?_⟩
  · simp [get_scheduled_events, add_scheduled_event, Nat.testBit_lor,
      Nat.testBit_two_pow]
  · simp [remove_scheduled_event, add_scheduled_event, Nat.testBit_land,
      Nat.testBit_lor, Nat.testBit_xor, Nat.testBit_two_pow,
      testBit_wordMask, hi]
  · apply Nat.eq_of_testBit_eq
    intro j
    simp [add_scheduled_event, Nat.testBit_lor, Bool.or_assoc]
  · intro hbit
    apply Nat.eq_of_testBit_eq
    intro j
    rcases lt_or_le j 32 with hj | hj
    · rcases eq_or_ne j i with rfl | hne
      · simp [remove_scheduled_event, Nat.testBit_land, Nat.testBit_xor,
          Nat.testBit_two_pow, testBit_wordMask, hj, hbit]
      · simp [remove_scheduled_event, Nat.testBit_land, Nat.testBit_xor,
          Nat.testBit_two_pow, testBit_wordMask, hj, Ne.symm hne]
    · have hsj := testBit_of_word s j hs hj
      have hij : i ≠ j := by omega
      simp [remove_scheduled_event, Nat.testBit_land, Nat.testBit_xor,
        Nat.testBit_two_pow, testBit_wordMask, hsj, hij,
        Nat.not_lt.mpr hj]

/-- Witness for C5 at the concrete state 5 and event bit 1. -/
theorem scheduler_event_algebra_witness :
    (get_scheduled_events (add_scheduled_event 5 (2 ^ 1))).testBit 1 = true ∧
    (remove_scheduled_event (add_scheduled_event 5 (2 ^ 1)) (2 ^ 1)).testBit 1 = false ∧
    add_scheduled_event (add_scheduled_event 5 (2 ^ 1)) (2 ^ 1) =
      add_scheduled_event 5 (2 ^ 1) ∧
    remove_scheduled_event 5 (2 ^ 1) = 5 := by
  have h := scheduler_event_algebra 5 1 (by norm_num) (by norm_num)
  exact ⟨h.1, h.2.1, h.2.2.1, h.2.2.2 (by decide)⟩

end Thermo

namespace Thermo

/-- Counterexample to claim C2 as stated: pushing the length-50 and length-25
test payloads back to back (before any pop) already exhausts the 64-byte
queue, so the second push hits the fatal assertion -- the three pushes cannot
all precede the pops. -/
theorem queue_round_trip_counterexample :
    runQOps ble_circ_init [QOp.push testStr1, QOp.push testStr2] = none := by
  decide

/-- Claim C2 (amended): interleaved as in `circular_buff_test` -- push the
length-50 payload, pop, push the length-25 and length-5 payloads, pop twice --
the three pops deliver the three original payloads in FIFO order, and a final
pop on the now-empty queue reports nothing to send (`true`) and leaves the
buffer state untouched. -/
theorem queue_round_trip :
    (runQOps ble_circ_init [QOp.push testStr1, QOp.popT, QOp.push testStr2,
        QOp.push testStr3, QOp.popT, QOp.popT, QOp.popT]).map Prod.snd =
      some [(false, testStr1), (false, testStr2), (false, testStr3), (true, [])] ∧
    (runQOps ble_circ_init [QOp.push testStr1, QOp.popT, QOp.push testStr2,
        QOp.push testStr3, QOp.popT, QOp.popT, QOp.popT]).map Prod.fst =
      (runQOps ble_circ_init [QOp.push testStr1, QOp.popT, QOp.push testStr2,
        QOp.push testStr3, QOp.popT, QOp.popT]).map Prod.fst := by
  exact ⟨by decide, by decide⟩

end Thermo

namespace Thermo

/-- Reading back a just-set element of a list. -/
theorem getD_set_self (l : List Nat) (n a : Nat) (h : n < l.length) :
    (l.set n a).getD n 0 = a := by
  simp [List.getD, List.getElem?_set_eq_of_lt a h]

/-- Setting one element leaves the others unchanged. -/
theorem getD_set_ne (l : List Nat) (n m a : Nat) (h : n ≠ m) :
    (l.set n a).getD m 0 = l.getD m 0 := by
  simp [List.getD, List.getElem?_set_ne h]

/-- The push loop does not move the read cursor. -/
theorem writeBytes_read_ptr (s : List Nat) (b : BLE_CIRCULAR_BUF) :
    (writeBytes b s).read_ptr = b.read_ptr := by
  induction s generalizing b with
  | nil => rfl
  | cons c t ih =>
      have h := ih (writeByte b c)
      exact h

/-- The push loop does not change the size counter. -/
theorem writeBytes_size (s : List Nat) (b : BLE_CIRCULAR_BUF) :
    (writeBytes b s).size = b.size := by
  induction s generalizing b with
  | nil => rfl
  | cons c t ih =>
      have h := ih (writeByte b c)
      exact h

/-- The push loop preserves the length of the backing array. -/
theorem writeBytes_length (s : List Nat) (b : BLE_CIRCULAR_BUF) :
    (writeBytes b s).cbuf.length = b.cbuf.length := by
  induction s generalizing b with
  | nil => rfl
  | cons c t ih =>
      have h := ih (writeByte b c)
      rw [writeBytes] at h ⊢
      rw [List.foldl_cons, h]
      simp [writeByte, update_circ_wrtindex, List.length_set]

/-- The push loop advances the write cursor by the number of bytes, mod 64. -/
theorem writeBytes_write_ptr (s : List Nat) (b : BLE_CIRCULAR_BUF)
    (hw : b.write_ptr < 64) :
    (writeBytes b s).write_ptr = (b.write_ptr + s.length) % 64 := by
  induction s generalizing b with
  | nil => simp [writeBytes, Nat.mod_eq_of_lt hw]
  | cons c t ih =>
      have hw2 : (writeByte b c).write_ptr < 64 := by
        simp [writeByte, update_circ_wrtindex]
        omega
      have := ih (writeByte b c) hw2
      simp only [writeBytes, List.foldl_cons] at this ⊢
      rw [this]
      simp only [writeByte, update_circ_wrtindex, List.length_cons]
      omega

/-- Slots whose index the push loop never writes keep their contents. -/
theorem writeBytes_getD_untouched (s : List Nat) (b : BLE_CIRCULAR_BUF) (p : Nat)
    (hw : b.write_ptr < 64)
    (h : ∀ j, j < s.length → (b.write_ptr + j) % 64 ≠ p) :
    (writeBytes b s).cbuf.getD p 0 = b.cbuf.getD p 0 := by
  induction s generalizing b with
  | nil => rfl
  | cons c t ih =>
      have hw2 : (writeByte b c).write_ptr < 64 := by
        simp [writeByte, update_circ_wrtindex]
        omega
      have hstep : ∀ j, j < t.length → ((writeByte b c).write_ptr + j) % 64 ≠ p := by
        intro j hj
        have := h (j + 1) (by simp; omega)
        simp only [writeByte, update_circ_wrtindex]
        omega
      have hwp : b.write_ptr ≠ p := by
        have := h 0 (by simp)
        omega
      calc (writeBytes (writeByte b c) t).cbuf.getD p 0
      _ = (writeByte b c).cbuf.getD p 0 := ih (writeByte b c) hw2 hstep
      _ = b.cbuf.getD p 0 := getD_set_ne _ _ _ _ hwp

/-- Each byte the push loop writes can be read back at its slot, provided at
most 64 bytes are written so that no slot is written twice. -/
theorem writeBytes_getD_written (s : List Nat) (b : BLE_CIRCULAR_BUF)
    (hw : b.write_ptr < 64) (hlen : b.cbuf.length = 64) (hs : s.length ≤ 64) :
    ∀ j, j < s.length → (writeBytes b s).cbuf.getD ((b.write_ptr + j) % 64) 0 = s.getD j 0 := by
  induction s generalizing b with
  | nil => intro j hj; simp at hj
  | cons c t ih =>
      intro j hj
      have hw2 : (writeByte b c).write_ptr < 64 := by
        simp [writeByte, update_circ_wrtindex]
        omega
      have hlen2 : (writeByte b c).cbuf.length = 64 := by
        simp [writeByte, update_circ_wrtindex, hlen]
      have ht : t.length ≤ 63 := by simp at hs; omega
      match j with
      | 0 =>
          have hmod : (b.write_ptr + 0) % 64 = b.write_ptr := by omega
          rw [hmod]
          have huntouched : ∀ i, i < t.length →
              ((writeByte b c).write_ptr + i) % 64 ≠ b.write_ptr := by
            intro i hi
            simp only [writeByte, update_circ_wrtindex]
            omega
          calc (writeBytes (writeByte b c) t).cbuf.getD b.write_ptr 0
          _ = (writeByte b c).cbuf.getD b.write_ptr 0 :=
              writeBytes_getD_untouched t (writeByte b c) _ hw2 huntouched
          _ = c := getD_set_self _ _ _ (by omega)
      | j + 1 =>
          have hmod : (b.write_ptr + (j + 1)) % 64 = ((writeByte b c).write_ptr + j) % 64 := by
            simp only [writeByte, update_circ_wrtindex]
            omega
          rw [hmod]
          have := ih (writeByte b c) hw2 hlen2 (by omega) j (by simp at hj; omega)
          simpa using this

end Thermo

namespace Thermo

/-- The pop loop only moves the read cursor, by the number of bytes mod 64. -/
theorem readBytes_fst (n : Nat) (b : BLE_CIRCULAR_BUF) (hr : b.read_ptr < 64) :
    (readBytes b n).1 = { b with read_ptr := (b.read_ptr + n) % 64 } := by
  induction n generalizing b with
  | zero =>
      cases b with
      | mk cbuf size_mask size read_ptr write_ptr =>
          simp only [readBytes]
          congr 1
          simp at hr
          omega
  | succ n ih =>
      have h2 : (update_circ_readindex b 1).read_ptr < 64 := by
        simp [update_circ_readindex]
        omega
      have h := ih (update_circ_readindex b 1) h2
      show (readBytes (update_circ_readindex b 1) n).1 = _
      rw [h]
      simp only [update_circ_readindex]
      congr 1
      omega

/-- The bytes delivered by the pop loop are the buffer contents at the
successive read positions. -/
theorem readBytes_snd (n : Nat) (b : BLE_CIRCULAR_BUF) (hr : b.read_ptr < 64) :
    (readBytes b n).2 =
      (List.range n).map (fun j => b.cbuf.getD ((b.read_ptr + j) % 64) 0) := by
  induction n generalizing b with
  | zero => simp [readBytes]
  | succ n ih =>
      have h2 : (update_circ_readindex b 1).read_ptr < 64 := by
        simp [update_circ_readindex]
        omega
      have h := ih (update_circ_readindex b 1) h2
      show b.cbuf.getD b.read_ptr 0 :: (readBytes (update_circ_readindex b 1) n).2 = _
      rw [h, List.range_succ_eq_map]
      simp only [List.map_cons, List.map_map, update_circ_readindex]
      have h0 : (b.read_ptr + 0) % 64 = b.read_ptr := by omega
      rw [h0]
      congr 1
      apply List.map_congr_left
      intro j hj
      simp only [Function.comp]
      have hj2 : ((b.read_ptr + 1) % 64 + j) % 64 = (b.read_ptr + (j + 1)) % 64 := by omega
      rw [hj2]

end Thermo

namespace Thermo

/-- Counterexample to claim C4 as stated: a push whose encoded size
`length + 1 = 65` exceeds the remaining capacity 64 of the fresh queue is
nonetheless accepted by the code (the check is `size < length`, not
`size < length + 1`). -/
theorem push_boundary_counterexample :
    ble_circ_init.size < (List.replicate 64 1).length + 1 ∧
    (ble_circ_push ble_circ_init (List.replicate 64 1)).isSome = true := by
  decide

/-- Claim C4 (amended): `push` is rejected (fatal assertion, modelled `none`,
so no state survives a rejection) exactly when `length(bytes)` exceeds the
remaining-capacity counter; an accepted push of encoded size at most the
64-byte capacity is enqueued completely: the read cursor is unchanged, the
write cursor advances by `length+1` mod 64, the length prefix sits at the old
write cursor, every payload byte sits in order after it, and the counter drops
by `length+1` in 32-bit arithmetic. -/
theorem push_complete_enqueue (b : BLE_CIRCULAR_BUF) (s : List Nat)
    (hlen : b.cbuf.length = 64) (hw : b.write_ptr < 64) (hs : s.length + 1 ≤ 64) :
    (ble_circ_push b s = none ↔ b.size < s.length) ∧
    (¬ b.size < s.length →
      (ble_circ_push b s).map (fun x => x.read_ptr) = some b.read_ptr ∧
      (ble_circ_push b s).map (fun x => x.write_ptr) =
        some ((b.write_ptr + (s.length + 1)) % 64) ∧
      (ble_circ_push b s).map (fun x => x.cbuf.getD b.write_ptr 0) = some s.length ∧
      (ble_circ_push b s).map (fun x => (List.range s.length).map
        (fun j => x.cbuf.getD ((b.write_ptr + (j + 1)) % 64) 0)) = some s ∧
      (ble_circ_push b s).map (fun x => x.size) =
        some (u32sub (b.size % 256) (s.length + 1))) := by
  constructor
  · unfold ble_circ_push
    by_cases hcase : b.size < s.length
    · simp [hcase]
    · simp [hcase]
  · intro hacc
    have hpush : ble_circ_push b s =
        some { writeBytes (writeByte b s.length) s with
          size := u32sub (ble_circ_space (writeBytes (writeByte b s.length) s))
            (s.length + 1) } := by
      unfold ble_circ_push
      simp [hacc]
    have hw1 : (writeByte b s.length).write_ptr < 64 := by
      simp [writeByte, update_circ_wrtindex]
      omega
    have hlen1 : (writeByte b s.length).cbuf.length = 64 := by
      simp [writeByte, update_circ_wrtindex, hlen]
    rw [hpush]
    refine ⟨?_, ?_, ?_, ?_, ?_⟩
    · simp [writeBytes_read_ptr, writeByte, update_circ_wrtindex]
    · simp only [Option.map_some']
      congr 1
      rw [writeBytes_write_ptr s (writeByte b s.length) hw1]
      simp only [writeByte, update_circ_wrtindex]
      omega
    · simp only [Option.map_some']
      congr 1
      have huntouched : ∀ j, j < s.length →
          ((writeByte b s.length).write_ptr + j) % 64 ≠ b.write_ptr := by
        intro j hj
        simp only [writeByte, update_circ_wrtindex]
        omega
      rw [writeBytes_getD_untouched s (writeByte b s.length) b.write_ptr hw1 huntouched]
      exact getD_set_self _ _ _ (by omega)
    · simp only [Option.map_some']
      congr 1
      have hpt : ∀ j, j < s.length →
          (writeBytes (writeByte b s.length) s).cbuf.getD
            ((b.write_ptr + (j + 1)) % 64) 0 = s.getD j 0 := by
        intro j hj
        have hmod : (b.write_ptr + (j + 1)) % 64 =
            ((writeByte b s.length).write_ptr + j) % 64 := by
          simp only [writeByte, update_circ_wrtindex]
          omega
        rw [hmod]
        exact writeBytes_getD_written s (writeByte b s.length) hw1 hlen1
          (by omega) j hj
      apply List.ext_getElem
      · simp
      · intro i h1 h2
        have hi : i < s.length := by simpa using h2
        simp only [List.getElem_map, List.getElem_range]
        rw [hpt i hi]
        exact List.getD_eq_getElem s 0 hi
    · simp only [Option.map_some']
      congr 1
      unfold ble_circ_space
      rw [writeBytes_size]
      simp [writeByte, update_circ_wrtindex]

/-- Witness for the amended C4 at the fresh queue and the payload `[7, 8]`. -/
theorem push_complete_enqueue_witness :
    (ble_circ_push ble_circ_init [7, 8] = none ↔
      ble_circ_init.size < [7, 8].length) ∧
    ((ble_circ_push ble_circ_init [7, 8]).map (fun x => x.read_ptr) =
        some ble_circ_init.read_ptr ∧
      (ble_circ_push ble_circ_init [7, 8]).map (fun x => x.write_ptr) =
        some ((ble_circ_init.write_ptr + ([7, 8].length + 1)) % 64) ∧
      (ble_circ_push ble_circ_init [7, 8]).map
        (fun x => x.cbuf.getD ble_circ_init.write_ptr 0) = some [7, 8].length ∧
      (ble_circ_push ble_circ_init [7, 8]).map (fun x => (List.range [7, 8].length).map
        (fun j => x.cbuf.getD ((ble_circ_init.write_ptr + (j + 1)) % 64) 0)) =
        some [7, 8] ∧
      (ble_circ_push ble_circ_init [7, 8]).map (fun x => x.size) =
        some (u32sub (ble_circ_init.size % 256) ([7, 8].length + 1))) := by
  have h := push_complete_enqueue ble_circ_init [7, 8] (by decide) (by decide) (by decide)
  exact ⟨h.1, h.2 (by decide)⟩

/-- Claim C10: the initial cursors are below 64, and every push and every pop
(test or operational mode) keeps both cursors below 64, because every cursor
advance is taken modulo 64; hence every buffer access indexes within the
64-byte array. -/
theorem cursors_in_bounds (b : BLE_CIRCULAR_BUF) (s : List Nat) (txidle : Bool)
    (tr : List Bool) (hr : b.read_ptr < 64) (hw : b.write_ptr < 64) :
    (ble_circ_init.read_ptr < 64 ∧ ble_circ_init.write_ptr < 64) ∧
    (ble_circ_push b s).all
      (fun x => decide (x.read_ptr < 64) && decide (x.write_ptr < 64)) = true ∧
    ((ble_circ_pop_test txidle b).2.1.read_ptr < 64 ∧
      (ble_circ_pop_test txidle b).2.1.write_ptr < 64) ∧
    (ble_circ_pop_oper txidle tr b).all
      (fun r => decide (r.2.1.read_ptr < 64) && decide (r.2.1.write_ptr < 64)) = true := by
  have hrb1 : (update_circ_readindex b 1).read_ptr < 64 := by
    simp [update_circ_readindex]
    omega
  refine ⟨by decide, ?_, ?_, ?_⟩
  · unfold ble_circ_push
    by_cases hcase : b.size < s.length
    · simp [hcase]
    · simp only [hcase, if_false, Option.all_some]
      have h1 : (writeByte b s.length).write_ptr < 64 := by
        simp [writeByte, update_circ_wrtindex]
        omega
      rw [Bool.and_eq_true, decide_eq_true_iff, decide_eq_true_iff]
      constructor
      · rw [writeBytes_read_ptr]
        simpa [writeByte, update_circ_wrtindex] using hr
      · rw [writeBytes_write_ptr s (writeByte b s.length) h1]
        omega
  · unfold ble_circ_pop_test
    by_cases h1 : txidle
    · by_cases h2 : b.size = CSIZE
      · simp [h1, h2]
        omega
      · simp only [h1, h2, Bool.not_true, Bool.false_eq_true, if_false, if_true]
        rw [readBytes_fst _ _ hrb1]
        simp [update_circ_readindex]
        omega
    · simp [h1]
      omega
  · unfold ble_circ_pop_oper
    by_cases h1 : txidle
    · by_cases h2 : b.size = CSIZE
      · simp [h1, h2]
        omega
      · simp only [h1, h2, Bool.not_true, Bool.false_eq_true, if_false, if_true]
        cases hb : busyWaitReadsTrue tr with
        | none => simp
        | some k =>
            simp only [Option.all_some]
            rw [Bool.and_eq_true, decide_eq_true_iff, decide_eq_true_iff]
            rw [readBytes_fst _ _ hrb1]
            simp [update_circ_readindex]
            omega
    · simp [h1]
      omega

/-- Witness for C10 at a concrete in-bounds state. -/
theorem cursors_in_bounds_witness :
    ((ble_circ_init.read_ptr < 64 ∧ ble_circ_init.write_ptr < 64) ∧
    (ble_circ_push ble_circ_init [9]).all
      (fun x => decide (x.read_ptr < 64) && decide (x.write_ptr < 64)) = true ∧
    ((ble_circ_pop_test true ble_circ_init).2.1.read_ptr < 64 ∧
      (ble_circ_pop_test true ble_circ_init).2.1.write_ptr < 64) ∧
    (ble_circ_pop_oper true [false] ble_circ_init).all
      (fun r => decide (r.2.1.read_ptr < 64) && decide (r.2.1.write_ptr < 64)) = true) :=
  cursors_in_bounds ble_circ_init [9] true [false] (by decide) (by decide)

end Thermo

namespace Thermo

/-- `queuedBytes` over a cons. -/
theorem queuedBytes_cons (p : List Nat) (ps : List (List Nat)) :
    queuedBytes (p :: ps) = p.length + 1 + queuedBytes ps := by
  simp [queuedBytes]

/-- `queuedBytes` over appending one packet. -/
theorem queuedBytes_append_one (ps : List (List Nat)) (s : List Nat) :
    queuedBytes (ps ++ [s]) = queuedBytes ps + (s.length + 1) := by
  simp [queuedBytes]

/-- `packetStream` over a cons. -/
theorem packetStream_cons (p : List Nat) (ps : List (List Nat)) :
    packetStream (p :: ps) = p.length :: (p ++ packetStream ps) := by
  simp [packetStream]

/-- `packetStream` over appending one packet. -/
theorem packetStream_append_one (ps : List (List Nat)) (s : List Nat) :
    packetStream (ps ++ [s]) = packetStream ps ++ (s.length :: s) := by
  simp [packetStream]

/-- The packet stream has exactly `queuedBytes` bytes. -/
theorem packetStream_length (ps : List (List Nat)) :
    (packetStream ps).length = queuedBytes ps := by
  induction ps with
  | nil => rfl
  | cons p ps ih =>
      rw [packetStream_cons, queuedBytes_cons]
      simp [ih]
      omega

/-- 32-bit subtraction agrees with truncated subtraction when it cannot
underflow. -/
theorem u32sub_of_le (a c : Nat) (hc : c ≤ a) (ha : a < 2 ^ 32) :
    u32sub a c = a - c := by
  unfold u32sub
  omega

end Thermo

namespace Thermo

/-- An accepted in-capacity push extends the represented packet list by the
pushed packet. -/
theorem push_preserves_rep (b b2 : BLE_CIRCULAR_BUF) (ps : List (List Nat))
    (s : List Nat) (hrep : QueueRep b ps) (hs : s.length + 1 ≤ b.size)
    (hpush : ble_circ_push b s = some b2) : QueueRep b2 (ps ++ [s]) := by
  obtain ⟨hL, hr, hw, hQ64, hsize, hwptr, hcontent⟩ := hrep
  have hQle : queuedBytes ps + (s.length + 1) ≤ 64 := by omega
  have hlen63 : s.length ≤ 63 := by omega
  have hnot : ¬ b.size < s.length := by omega
  have hpush2 : b2 = { writeBytes (writeByte b s.length) s with
      size := u32sub (ble_circ_space (writeBytes (writeByte b s.length) s))
        (s.length + 1) } := by
    unfold ble_circ_push at hpush
    rw [if_neg hnot] at hpush
    exact (Option.some.inj hpush).symm
  have hw1 : (writeByte b s.length).write_ptr = (b.write_ptr + 1) % 64 := rfl
  have hw1lt : (writeByte b s.length).write_ptr < 64 := by
    rw [hw1]
    exact Nat.mod_lt _ (by decide)
  have hlen1 : (writeByte b s.length).cbuf.length = 64 := by
    simp [writeByte, update_circ_wrtindex, hL]
  have hWread : (writeBytes (writeByte b s.length) s).read_ptr = b.read_ptr :=
    writeBytes_read_ptr s (writeByte b s.length)
  have hWwptr : (writeBytes (writeByte b s.length) s).write_ptr =
      (b.write_ptr + (s.length + 1)) % 64 := by
    rw [writeBytes_write_ptr s _ hw1lt, hw1]
    omega
  have hWlen : (writeBytes (writeByte b s.length) s).cbuf.length = 64 := by
    rw [writeBytes_length]
    exact hlen1
  have hWsize : (writeBytes (writeByte b s.length) s).size = b.size :=
    writeBytes_size s (writeByte b s.length)
  have hspace : ble_circ_space (writeBytes (writeByte b s.length) s) = b.size := by
    unfold ble_circ_space
    rw [hWsize]
    omega
  rw [hpush2]
  refine ⟨?_, ?_, ?_, ?_, ?_, ?_, ?_⟩
  · show (writeBytes (writeByte b s.length) s).cbuf.length = 64
    exact hWlen
  · show (writeBytes (writeByte b s.length) s).read_ptr < 64
    rw [hWread]
    exact hr
  · show (writeBytes (writeByte b s.length) s).write_ptr < 64
    rw [hWwptr]
    exact Nat.mod_lt _ (by decide)
  · rw [queuedBytes_append_one]
    exact hQle
  · show u32sub (ble_circ_space (writeBytes (writeByte b s.length) s)) (s.length + 1) =
      64 - queuedBytes (ps ++ [s])
    rw [hspace, u32sub_of_le _ _ (by omega) (by omega), queuedBytes_append_one]
    omega
  · show (writeBytes (writeByte b s.length) s).write_ptr =
      ((writeBytes (writeByte b s.length) s).read_ptr + queuedBytes (ps ++ [s])) % 64
    rw [hWwptr, hWread, hwptr, queuedBytes_append_one]
    omega
  · show ∀ j, j < queuedBytes (ps ++ [s]) →
      (writeBytes (writeByte b s.length) s).cbuf.getD
        (((writeBytes (writeByte b s.length) s).read_ptr + j) % 64) 0 =
      (packetStream (ps ++ [s])).getD j 0
    intro j hj
    rw [queuedBytes_append_one] at hj
    rw [hWread, packetStream_append_one]
    have hstreamlen : (packetStream ps).length = queuedBytes ps := packetStream_length ps
    rcases Nat.lt_trichotomy j (queuedBytes ps) with hjQ | hjQ | hjQ
    · have huntouched : ∀ k, k < s.length →
          ((writeByte b s.length).write_ptr + k) % 64 ≠ (b.read_ptr + j) % 64 := by
        intro k hk
        rw [hw1, hwptr]
        omega
      rw [writeBytes_getD_untouched s _ _ hw1lt huntouched]
      have hne2 : b.write_ptr ≠ (b.read_ptr + j) % 64 := by
        rw [hwptr]
        omega
      show ((writeByte b s.length).cbuf).getD ((b.read_ptr + j) % 64) 0 = _
      rw [show (writeByte b s.length).cbuf = b.cbuf.set b.write_ptr s.length from rfl]
      rw [getD_set_ne _ _ _ _ hne2, hcontent j hjQ,
        List.getD_append _ _ _ _ (by omega)]
    · have hpos : (b.read_ptr + j) % 64 = b.write_ptr := by
        rw [hwptr, hjQ]
      have huntouched : ∀ k, k < s.length →
          ((writeByte b s.length).write_ptr + k) % 64 ≠ b.write_ptr := by
        intro k hk
        rw [hw1]
        omega
      rw [hpos, writeBytes_getD_untouched s _ _ hw1lt huntouched]
      show ((writeByte b s.length).cbuf).getD b.write_ptr 0 = _
      rw [show (writeByte b s.length).cbuf = b.cbuf.set b.write_ptr s.length from rfl]
      rw [getD_set_self _ _ _ (by omega),
        List.getD_append_right _ _ _ _ (by omega), hstreamlen, hjQ]
      simp
    · have hk : j - queuedBytes ps - 1 < s.length := by omega
      have hidx : (b.read_ptr + j) % 64 =
          ((writeByte b s.length).write_ptr + (j - queuedBytes ps - 1)) % 64 := by
        rw [hw1, hwptr]
        omega
      rw [hidx, writeBytes_getD_written s _ hw1lt hlen1 (by omega) _ hk]
      rw [List.getD_append_right _ _ _ _ (by omega), hstreamlen]
      have hsplit : j - queuedBytes ps = (j - queuedBytes ps - 1) + 1 := by omega
      rw [hsplit, List.getD_cons_succ]
      simp

/-- Popping an empty represented queue reports nothing to send and leaves the
state untouched. -/
theorem pop_empty_rep (b : BLE_CIRCULAR_BUF) (hrep : QueueRep b []) :
    ble_circ_pop_test true b = (true, b, []) := by
  obtain ⟨hL, hr, hw, hQ64, hsize, hwptr, hcontent⟩ := hrep
  have hs : b.size = CSIZE := by
    rw [hsize]
    rfl
  unfold ble_circ_pop_test
  rw [hs]
  simp

/-- Popping a nonempty represented queue delivers the oldest packet and leaves
a state representing the remaining packets. -/
theorem pop_cons_rep (b : BLE_CIRCULAR_BUF) (p : List Nat) (ps2 : List (List Nat))
    (hrep : QueueRep b (p :: ps2)) :
    (ble_circ_pop_test true b).1 = false ∧
    (ble_circ_pop_test true b).2.2 = p ∧
    QueueRep (ble_circ_pop_test true b).2.1 ps2 := by
  obtain ⟨hL, hr, hw, hQ64, hsize, hwptr, hcontent⟩ := hrep
  have hQc : queuedBytes (p :: ps2) = p.length + 1 + queuedBytes ps2 :=
    queuedBytes_cons p ps2
  have hplen : p.length + 1 + queuedBytes ps2 ≤ 64 := by omega
  have hne : ¬ b.size = CSIZE := by
    rw [hsize, hQc]
    show ¬ (64 - (p.length + 1 + queuedBytes ps2) = 64)
    omega
  have hlen0 : b.cbuf.getD b.read_ptr 0 = p.length := by
    have h0 := hcontent 0 (by omega)
    rw [packetStream_cons] at h0
    have hz : (b.read_ptr + 0) % 64 = b.read_ptr := by omega
    rw [hz] at h0
    simpa using h0
  have hrb1 : (update_circ_readindex b 1).read_ptr < 64 := by
    show (b.read_ptr + 1) % 64 < 64
    exact Nat.mod_lt _ (by decide)
  have hfst : (readBytes (update_circ_readindex b 1) p.length).1 =
      { b with read_ptr := ((b.read_ptr + 1) % 64 + p.length) % 64 } :=
    readBytes_fst p.length (update_circ_readindex b 1) hrb1
  have hsnd := readBytes_snd p.length (update_circ_readindex b 1) hrb1
  have hpay : (readBytes (update_circ_readindex b 1) p.length).2 = p := by
    rw [hsnd]
    apply List.ext_getElem
    · simp
    · intro i h1 h2
      have hi : i < p.length := by simpa using h2
      simp only [List.getElem_map, List.getElem_range]
      show b.cbuf.getD (((b.read_ptr + 1) % 64 + i) % 64) 0 = _
      have hidx : ((b.read_ptr + 1) % 64 + i) % 64 = (b.read_ptr + (1 + i)) % 64 := by
        omega
      rw [hidx]
      have hc := hcontent (1 + i) (by omega)
      rw [packetStream_cons] at hc
      rw [hc]
      have h1i : 1 + i = i + 1 := by omega
      rw [h1i, List.getD_cons_succ, List.getD_append _ _ _ _ hi]
      exact List.getD_eq_getElem p 0 hi
  have hkey : ble_circ_pop_test true b =
      (false,
        { b with
            read_ptr := ((b.read_ptr + 1) % 64 + p.length) % 64,
            size := (b.size % 256 + p.length + 1) % 2 ^ 32 },
        p) := by
    unfold ble_circ_pop_test
    simp only [Bool.not_true, Bool.false_eq_true, if_false, if_neg hne, hlen0]
    rw [hpay, hfst]
    rfl
  refine ⟨by rw [hkey], by rw [hkey], ?_⟩
  rw [hkey]
  refine ⟨?_, ?_, ?_, ?_, ?_, ?_, ?_⟩
  · show b.cbuf.length = 64
    exact hL
  · show ((b.read_ptr + 1) % 64 + p.length) % 64 < 64
    exact Nat.mod_lt _ (by decide)
  · show b.write_ptr < 64
    exact hw
  · omega
  · show (b.size % 256 + p.length + 1) % 2 ^ 32 = 64 - queuedBytes ps2
    rw [hsize, hQc]
    omega
  · show b.write_ptr = (((b.read_ptr + 1) % 64 + p.length) % 64 + queuedBytes ps2) % 64
    rw [hwptr, hQc]
    omega
  · intro j hj
    show b.cbuf.getD ((((b.read_ptr + 1) % 64 + p.length) % 64 + j) % 64) 0 =
      (packetStream ps2).getD j 0
    have hidx : (((b.read_ptr + 1) % 64 + p.length) % 64 + j) % 64 =
        (b.read_ptr + (p.length + 1 + j)) % 64 := by omega
    rw [hidx]
    have hc := hcontent (p.length + 1 + j) (by omega)
    rw [hc, packetStream_cons]
    have hsplit : p.length + 1 + j = (p.length + j) + 1 := by omega
    rw [hsplit, List.getD_cons_succ,
      List.getD_append_right _ _ _ _ (by omega)]
    congr 1
    omega

/-- Counterexample to claim C6 as stated: pushing a length-64 packet onto the
fresh queue is accepted by the code and completes, after which the
remaining-space counter holds `2^32 - 1`; no packet multiset can make the
counter equal `capacity - unconsumed bytes` there (that difference is `-1`
as an integer). -/
theorem queue_capacity_counterexample :
    (ble_circ_push ble_circ_init (List.replicate 64 1)).map
      (fun x => (x.size : Int)) = some (2 ^ 32 - 1) ∧
    ((2 : Int) ^ 32 - 1 ≠ 64 - (queuedBytes [List.replicate 64 1] : Int)) := by
  refine ⟨by decide, by decide⟩

/-- Claim C6 (amended): the remaining-space counter equals capacity (64) minus
the unconsumed bytes across all queued packets (each packet counting its
payload plus one length-prefix byte) -- the representation `QueueRep` -- holds
initially and is preserved by every pop and by every push that leaves at
least one free byte (`length + 1 ≤ size`); the push accepted at exactly
`length = size` violates it (see the counterexample). -/
theorem queue_capacity_invariant (b b2 : BLE_CIRCULAR_BUF) (ps ps2 : List (List Nat))
    (s p : List Nat) (hrep : QueueRep b ps) :
    QueueRep ble_circ_init [] ∧
    (s.length + 1 ≤ b.size → ble_circ_push b s = some b2 → QueueRep b2 (ps ++ [s])) ∧
    (ps = [] → ble_circ_pop_test true b = (true, b, [])) ∧
    (ps = p :: ps2 →
      (ble_circ_pop_test true b).1 = false ∧
      (ble_circ_pop_test true b).2.2 = p ∧
      QueueRep (ble_circ_pop_test true b).2.1 ps2) := by
  refine ⟨by decide, ?_, ?_, ?_⟩
  · intro hs hpush
    exact push_preserves_rep b b2 ps s hrep hs hpush
  · intro h
    subst h
    exact pop_empty_rep b hrep
  · intro h
    subst h
    exact pop_cons_rep b p ps2 hrep

/-- Witness for the amended C6: a concrete push of `[7, 8]`, a push of `[9]`,
and a pop. -/
theorem queue_capacity_invariant_witness :
    QueueRep ble_circ_init [] ∧
    QueueRep ((ble_circ_push ((ble_circ_push ble_circ_init [7, 8]).getD
        ble_circ_init) [9]).getD ble_circ_init) ([[7, 8]] ++ [[9]]) ∧
    (ble_circ_pop_test true ((ble_circ_push ble_circ_init [7, 8]).getD
        ble_circ_init)).1 = false ∧
    (ble_circ_pop_test true ((ble_circ_push ble_circ_init [7, 8]).getD
        ble_circ_init)).2.2 = [7, 8] ∧
    QueueRep (ble_circ_pop_test true ((ble_circ_push ble_circ_init [7, 8]).getD
        ble_circ_init)).2.1 [] := by
  have h := queue_capacity_invariant
    ((ble_circ_push ble_circ_init [7, 8]).getD ble_circ_init)
    ((ble_circ_push ((ble_circ_push ble_circ_init [7, 8]).getD ble_circ_init)
      [9]).getD ble_circ_init)
    [[7, 8]] [] [9] [7, 8] (by decide)
  exact ⟨h.1, h.2.1 (by decide) (by decide), (h.2.2.2 rfl).1, (h.2.2.2 rfl).2.1,
    (h.2.2.2 rfl).2.2⟩

/-- Concatenating a high part shifted by one byte with a byte is addition. -/
theorem lor_byte_eq_add (a c : Nat) (hc : c < 256) :
    (a <<< 8) ||| c = a * 256 + c := by
  have hc2 : c < 2 ^ 8 := hc
  apply Nat.eq_of_testBit_eq
  intro j
  rw [Nat.testBit_lor, show a * 256 = 2 ^ 8 * a by ring,
    Nat.testBit_mul_pow_two_add a hc2 j, Nat.testBit_shiftLeft]
  by_cases hj : j < 8
  · simp [hj, Nat.not_le.mpr hj]
  · have hcj : Nat.testBit c j = false :=
      Nat.testBit_lt_two_pow
        (lt_of_lt_of_le hc2 (Nat.pow_le_pow_right (by decide) (Nat.not_lt.mp hj)))
    simp [hj, Nat.not_lt.mp hj, hcj]

/-- Counterexample to claim C3 as stated: for N = 3 delivered bytes 5, 6, 7,
the engine completes and posts one event, but the destination word ends up as
`6*256 + 7 = 1543` -- the first byte is overwritten -- and not the
most-significant-byte-first value 329223 of the three bytes. -/
theorem bus_engine_counterexample :
    (i2cRun (I2C_Start 64 3 243 0 [0, 0, 0, 0, 0])
        [I2CSignal.ack, I2CSignal.ack, I2CSignal.nack, I2CSignal.ack,
         I2CSignal.rxdatav 5, I2CSignal.rxdatav 6, I2CSignal.rxdatav 7,
         I2CSignal.mstop]).payload.data = 1543 ∧
    msbFirst [5, 6, 7] = 329223 ∧ (1543 : Nat) ≠ 329223 := by
  refine ⟨by decide, by decide, by decide⟩

set_option maxRecDepth 4000 in
/-- Claim C3 (amended): for the two-byte read the engine performs (N = 2, the
design's payload size): started with count 2 and fed ACK (addressing), ACK
(command), NACK then ACK on the read address, and two data bytes followed by
the bus stop, the engine reaches `end_process` (Complete) before the stop,
resets to its first state on the stop, leaves the two bytes
most-significant-byte first in the destination word, posts exactly one
completion event, and hits no fatal assertion.  For three or more bytes the
destination-content part fails (see the counterexample). -/
theorem bus_engine_two_byte_read (dev cmd data0 b1 b2 : Nat) (t : List Nat)
    (_hb1 : b1 < 256) (hb2 : b2 < 256) :
    (i2cRun (I2C_Start dev 2 cmd data0 t)
        [I2CSignal.ack, I2CSignal.ack, I2CSignal.nack, I2CSignal.ack,
         I2CSignal.rxdatav b1, I2CSignal.rxdatav b2]).payload.current_state =
      i2c_defined_states.end_process ∧
    (i2cRun (I2C_Start dev 2 cmd data0 t)
        [I2CSignal.ack, I2CSignal.ack, I2CSignal.nack, I2CSignal.ack,
         I2CSignal.rxdatav b1, I2CSignal.rxdatav b2,
         I2CSignal.mstop]).payload.current_state = i2c_defined_states.init_st ∧
    (i2cRun (I2C_Start dev 2 cmd data0 t)
        [I2CSignal.ack, I2CSignal.ack, I2CSignal.nack, I2CSignal.ack,
         I2CSignal.rxdatav b1, I2CSignal.rxdatav b2,
         I2CSignal.mstop]).payload.data = msbFirst [b1, b2] ∧
    (i2cRun (I2C_Start dev 2 cmd data0 t)
        [I2CSignal.ack, I2CSignal.ack, I2CSignal.nack, I2CSignal.ack,
         I2CSignal.rxdatav b1, I2CSignal.rxdatav b2,
         I2CSignal.mstop]).events = [SI7021_READ_EVT] ∧
    (i2cRun (I2C_Start dev 2 cmd data0 t)
        [I2CSignal.ack, I2CSignal.ack, I2CSignal.nack, I2CSignal.ack,
         I2CSignal.rxdatav b1, I2CSignal.rxdatav b2,
         I2CSignal.mstop]).fatal = false := by
  refine ⟨rfl, rfl, ?_, rfl, rfl⟩
  have hd : (i2cRun (I2C_Start dev 2 cmd data0 t)
      [I2CSignal.ack, I2CSignal.ack, I2CSignal.nack, I2CSignal.ack,
       I2CSignal.rxdatav b1, I2CSignal.rxdatav b2,
       I2CSignal.mstop]).payload.data = (b1 <<< 8) ||| b2 := rfl
  rw [hd, lor_byte_eq_add b1 b2 hb2]
  simp [msbFirst]

set_option maxRecDepth 4000 in
/-- Witness for the amended C3 at device 64, command 243, bytes 171 and 205. -/
theorem bus_engine_two_byte_read_witness :
    (i2cRun (I2C_Start 64 2 243 0 [0, 0, 0, 0, 0])
        [I2CSignal.ack, I2CSignal.ack, I2CSignal.nack, I2CSignal.ack,
         I2CSignal.rxdatav 171, I2CSignal.rxdatav 205]).payload.current_state =
      i2c_defined_states.end_process ∧
    (i2cRun (I2C_Start 64 2 243 0 [0, 0, 0, 0, 0])
        [I2CSignal.ack, I2CSignal.ack, I2CSignal.nack, I2CSignal.ack,
         I2CSignal.rxdatav 171, I2CSignal.rxdatav 205,
         I2CSignal.mstop]).payload.current_state = i2c_defined_states.init_st ∧
    (i2cRun (I2C_Start 64 2 243 0 [0, 0, 0, 0, 0])
        [I2CSignal.ack, I2CSignal.ack, I2CSignal.nack, I2CSignal.ack,
         I2CSignal.rxdatav 171, I2CSignal.rxdatav 205,
         I2CSignal.mstop]).payload.data = msbFirst [171, 205] ∧
    (i2cRun (I2C_Start 64 2 243 0 [0, 0, 0, 0, 0])
        [I2CSignal.ack, I2CSignal.ack, I2CSignal.nack, I2CSignal.ack,
         I2CSignal.rxdatav 171, I2CSignal.rxdatav 205,
         I2CSignal.mstop]).events = [SI7021_READ_EVT] ∧
    (i2cRun (I2C_Start 64 2 243 0 [0, 0, 0, 0, 0])
        [I2CSignal.ack, I2CSignal.ack, I2CSignal.nack, I2CSignal.ack,
         I2CSignal.rxdatav 171, I2CSignal.rxdatav 205,
         I2CSignal.mstop]).fatal = false :=
  bus_engine_two_byte_read 64 243 0 171 205 [0, 0, 0, 0, 0] (by decide) (by decide)

end Thermo

namespace Thermo

/-- The receive model reproduces the repository's own TDD expectation
(leuart.c:314-322): feeding the bytes of "Hello#Test4U?" accumulates
"#Test4U?" -- both markers included -- terminated by 0. -/
theorem rx_model_matches_leuart_rx_test :
    (leuartFeed (leuart_open_state [0, 0, 0, 0, 0])
        [72, 101, 108, 108, 111, 35, 84, 101, 115, 116, 52, 85, 63]
      ).lePayload.received_str.take 9 = [35, 84, 101, 115, 116, 52, 85, 63, 0] := by
  decide

/-- Counterexample to claim C1 as stated: feeding start, 'A', 'B', 'C', stop
(35, 65, 66, 67, 63) accumulates "#ABC?" -- both marker bytes are stored --
and not "ABC": the first four buffer bytes are 35, 65, 66, 67, not
65, 66, 67, 0.  (The code's own receive test, leuart.c:316, likewise expects
the markers inside the accumulated string.) -/
theorem link_receive_counterexample :
    (leuartFeed (leuart_open_state [0, 0, 0, 0, 0])
        [35, 65, 66, 67, 63]).lePayload.received_str.take 4 = [35, 65, 66, 67] ∧
    [35, 65, 66, 67] ≠ [65, 66, 67, 0] := by
  refine ⟨by decide, by decide⟩

/-- Claim C1 (amended): from the post-open idle receiver, feeding the byte
sequence start, 'A', 'B', 'C', stop yields the accumulated null-terminated
message "#ABC?" -- the start and stop marker bytes are both stored, the start
marker because the state-skipping RXDATAV service leaves it in the holding
register and the stop marker because RXDATAV stores it before SIGF runs --
with the cursor past the terminator, exactly one rx-done event posted, the
receiver back in idle and not busy, RXBLOCK re-armed, and the byte-available
and stop-marker interrupts disabled. -/
theorem link_receive_frame :
    (leuartFeed (leuart_open_state [0, 0, 0, 0, 0])
        [35, 65, 66, 67, 63]).lePayload.received_str.take 6 =
      [35, 65, 66, 67, 63, 0] ∧
    (leuartFeed (leuart_open_state [0, 0, 0, 0, 0])
        [35, 65, 66, 67, 63]).lePayload.rx_count = 6 ∧
    (leuartFeed (leuart_open_state [0, 0, 0, 0, 0])
        [35, 65, 66, 67, 63]).events = [LEUART_RX_EVT] ∧
    (leuartFeed (leuart_open_state [0, 0, 0, 0, 0])
        [35, 65, 66, 67, 63]).lePayload.rx_state = leuart_rx_states.idle ∧
    (leuartFeed (leuart_open_state [0, 0, 0, 0, 0])
        [35, 65, 66, 67, 63]).lePayload.rxbusy = false ∧
    (leuartFeed (leuart_open_state [0, 0, 0, 0, 0])
        [35, 65, 66, 67, 63]).rxblocken = true ∧
    (leuartFeed (leuart_open_state [0, 0, 0, 0, 0])
        [35, 65, 66, 67, 63]).ien_rxdatav = false ∧
    (leuartFeed (leuart_open_state [0, 0, 0, 0, 0])
        [35, 65, 66, 67, 63]).ien_sigf = false ∧
    (leuartFeed (leuart_open_state [0, 0, 0, 0, 0])
        [35, 65, 66, 67, 63]).fatal = false := by
  refine ⟨by decide, by decide, by decide, by decide, by decide, by decide,
    by decide, by decide, by decide⟩

/-- Claim C8: the main loop's fixed-priority scan removes each of the
timer-underflow, bus-read-complete, boot and link-tx-complete bits when it is
the one pending, but it has no branch at all for the link-rx-complete bit, so
a posted LEUART_RX_EVT survives every scan unserviced (and, the pending set
never being empty again, the sleep entry at main.c:84-87 is never reached). -/
theorem rx_event_never_serviced :
    mainLoopScan LEUART_RX_EVT = LEUART_RX_EVT ∧ LEUART_RX_EVT ≠ 0 ∧
    mainLoopScan LETIMER0_UF_EVT = 0 ∧
    mainLoopScan SI7021_READ_EVT = 0 ∧
    mainLoopScan BOOT_UP_EVT = 0 ∧
    mainLoopScan LEUART_TX_EVT = 0 ∧
    (mainScanBranches.map Prod.fst).all (fun g => g &&& LEUART_RX_EVT = 0) = true := by
  refine ⟨by decide, by decide, by decide, by decide, by decide, by decide,
    by decide⟩

/-- Counterexample to claim C9 as stated: a non-test pop with the queue
holding one packet polls the transmitter's busy flag until it reads false --
with busy readings true, true, false it performs 2 busy polls, not 0 -- and
with the flag stuck true it never returns at all. -/
theorem pop_busy_wait_counterexample :
    (ble_circ_pop_oper true [true, true, false]
        ((ble_circ_push ble_circ_init [7, 8]).getD ble_circ_init)).map
      (fun r => r.2.2.2) = some 2 ∧ (2 : Nat) ≠ 0 ∧
    ble_circ_pop_oper true [true, true, true]
        ((ble_circ_push ble_circ_init [7, 8]).getD ble_circ_init) = none := by
  refine ⟨by decide, by decide, by decide⟩

/-- Claim C9 (amended): a non-test pop of a nonempty queue with the
transmitter idle hands the packet to `leuart_start` and then busy-waits on
`leuart_tx_busy`: it returns only once a poll of the busy flag reads false,
having performed as many polls as the flag stayed true, with the same queue
effect as a test-mode pop; if the flag never reads false the loop never
exits.  The only wait the main loop itself performs is the sleep entry taken
when no events are pending (main.c:84-87). -/
theorem pop_oper_busy_waits (b : BLE_CIRCULAR_BUF) (tr : List Bool)
    (hsz : ¬ b.size = CSIZE) :
    ble_circ_pop_oper true tr b =
      (busyWaitReadsTrue tr).map (fun polls =>
        (false, (ble_circ_pop_test true b).2.1, (ble_circ_pop_test true b).2.2,
          polls)) := by
  unfold ble_circ_pop_oper ble_circ_pop_test
  simp only [Bool.not_true, Bool.false_eq_true, if_false, if_neg hsz]
  cases busyWaitReadsTrue tr with
  | none => rfl
  | some k => rfl

/-- Witness for the amended C9 on a queue holding one packet and a busy flag
that reads true once. -/
theorem pop_oper_busy_waits_witness :
    ble_circ_pop_oper true [true, false]
        ((ble_circ_push ble_circ_init [7, 8]).getD ble_circ_init) =
      (busyWaitReadsTrue [true, false]).map (fun polls =>
        (false,
          (ble_circ_pop_test true
            ((ble_circ_push ble_circ_init [7, 8]).getD ble_circ_init)).2.1,
          (ble_circ_pop_test true
            ((ble_circ_push ble_circ_init [7, 8]).getD ble_circ_init)).2.2,
          polls)) :=
  pop_oper_busy_waits ((ble_circ_push ble_circ_init [7, 8]).getD ble_circ_init)
    [true, false] (by decide)

end Thermo

namespace Thermo

/-- Writing back the value already at an index leaves a list unchanged. -/
theorem set_getD_self (l : List Nat) (n : Nat) (_h : n < l.length) :
    l.set n (l.getD n 0) = l := by
  apply List.ext_getElem
  · simp
  · intro i h1 h2
    rw [List.getElem_set]
    split
    · next heq =>
        subst heq
        exact List.getD_eq_getElem l 0 h2
    · rfl

/-- An unblock right after a block restores the power-mode table. -/
theorem sleep_unblock_block (t : List Nat) (em : Nat) (h : em < t.length) :
    sleep_unblock_mode (sleep_block_mode t em) em = t := by
  unfold sleep_block_mode sleep_unblock_mode
  rw [getD_set_self t em _ h]
  simp only [Nat.add_sub_cancel]
  rw [List.set_set]
  exact set_getD_self t em h

/-- A drained transmit machine with TXBL disabled is not pumped further. -/
theorem txPump_stopped (fuel : Nat) (st : LeuartState) (h : st.ien_txbl = false) :
    txPump fuel st = st := by
  cases fuel with
  | zero => rfl
  | succ f =>
      unfold txPump
      rw [h]
      rfl

/-- `TXBL_Interrupt` on a zero count: switch to `transmit_done` and hand over
to TXC. -/
theorem TXBL_zero (st : LeuartState)
    (h1 : st.lePayload.state = leuart_tx_states.transmit)
    (h2 : st.lePayload.count = 0) :
    (TXBL_Interrupt st).sleep = st.sleep ∧
    (TXBL_Interrupt st).events = st.events ∧
    (TXBL_Interrupt st).lePayload.txbusy = st.lePayload.txbusy ∧
    (TXBL_Interrupt st).lePayload.state = leuart_tx_states.transmit_done ∧
    (TXBL_Interrupt st).ien_txbl = false ∧
    (TXBL_Interrupt st).ien_txc = true ∧
    (TXBL_Interrupt st).fatal = st.fatal := by
  simp [TXBL_Interrupt, h1, h2]

/-- `TXBL_Interrupt` on the last byte: send it and switch to `transmit_done`
in the same service. -/
theorem TXBL_last (st : LeuartState)
    (h1 : st.lePayload.state = leuart_tx_states.transmit)
    (h2 : st.lePayload.count = 1) :
    (TXBL_Interrupt st).sleep = st.sleep ∧
    (TXBL_Interrupt st).events = st.events ∧
    (TXBL_Interrupt st).lePayload.txbusy = st.lePayload.txbusy ∧
    (TXBL_Interrupt st).lePayload.state = leuart_tx_states.transmit_done ∧
    (TXBL_Interrupt st).ien_txbl = false ∧
    (TXBL_Interrupt st).ien_txc = true ∧
    (TXBL_Interrupt st).fatal = st.fatal := by
  simp [TXBL_Interrupt, h1, h2]

/-- `TXBL_Interrupt` mid-string: send one byte and stay in `transmit`. -/
theorem TXBL_mid (st : LeuartState) (m : Nat)
    (h1 : st.lePayload.state = leuart_tx_states.transmit)
    (h2 : st.lePayload.count = m + 2) :
    (TXBL_Interrupt st).sleep = st.sleep ∧
    (TXBL_Interrupt st).events = st.events ∧
    (TXBL_Interrupt st).lePayload.txbusy = st.lePayload.txbusy ∧
    (TXBL_Interrupt st).lePayload.state = leuart_tx_states.transmit ∧
    (TXBL_Interrupt st).lePayload.count = m + 1 ∧
    (TXBL_Interrupt st).ien_txbl = st.ien_txbl ∧
    (TXBL_Interrupt st).ien_txc = st.ien_txc ∧
    (TXBL_Interrupt st).fatal = st.fatal := by
  simp [TXBL_Interrupt, h1, h2]

/-- Pumping TXBL with enough fuel drains the transmit machine: it ends in
`transmit_done` waiting on TXC, with the power-mode table, the event list and
the busy flag untouched. -/
theorem txPump_drains (fuel : Nat) : ∀ st : LeuartState,
    st.lePayload.state = leuart_tx_states.transmit →
    st.ien_txbl = true → st.fatal = false →
    st.lePayload.count ≤ fuel → 1 ≤ fuel →
    (txPump fuel st).sleep = st.sleep ∧
    (txPump fuel st).events = st.events ∧
    (txPump fuel st).lePayload.txbusy = st.lePayload.txbusy ∧
    (txPump fuel st).lePayload.state = leuart_tx_states.transmit_done ∧
    (txPump fuel st).ien_txbl = false ∧
    (txPump fuel st).ien_txc = true ∧
    (txPump fuel st).fatal = false := by
  induction fuel with
  | zero =>
      intro st _ _ _ _ hf
      omega
  | succ f ih =>
      intro st h1 h3 h4 hc _
      have hstep : txPump (f + 1) st = txPump f (TXBL_Interrupt st) := by
        show (if (st.ien_txbl && !st.fatal) = true then txPump f (TXBL_Interrupt st)
          else st) = _
        rw [h3, h4]
        rfl
      rw [hstep]
      match hcount : st.lePayload.count with
      | 0 =>
          obtain ⟨e1, e2, e3, e4, e5, e6, e7⟩ := TXBL_zero st h1 hcount
          rw [txPump_stopped f _ e5]
          exact ⟨e1, e2, e3, e4, e5, e6, by rw [e7, h4]⟩
      | 1 =>
          obtain ⟨e1, e2, e3, e4, e5, e6, e7⟩ := TXBL_last st h1 hcount
          rw [txPump_stopped f _ e5]
          exact ⟨e1, e2, e3, e4, e5, e6, by rw [e7, h4]⟩
      | m + 2 =>
          obtain ⟨e1, e2, e3, e4, e5, e6, e7, e8⟩ := TXBL_mid st m h1 hcount
          have hfc : (TXBL_Interrupt st).lePayload.count ≤ f := by
            rw [e5]
            omega
          have hff : 1 ≤ f := by omega
          obtain ⟨g1, g2, g3, g4, g5, g6, g7⟩ :=
            ih (TXBL_Interrupt st) e4 (by rw [e6, h3]) (by rw [e8, h4]) hfc hff
          exact ⟨g1.trans e1, g2.trans e2, g3.trans e3, g4, g5, g6, g7⟩

end Thermo

namespace Thermo

/-- `STARTF_Interrupt` never touches the power-mode table. -/
theorem STARTF_Interrupt_sleep (st : LeuartState) :
    (STARTF_Interrupt st).sleep = st.sleep := by
  cases h : st.lePayload.rx_state <;> simp [STARTF_Interrupt, h]
  split <;> rfl

/-- `RXDATAV_Interrupt` never touches the power-mode table. -/
theorem RXDATAV_Interrupt_sleep (st : LeuartState) :
    (RXDATAV_Interrupt st).sleep = st.sleep := by
  cases h : st.lePayload.rx_state <;> simp [RXDATAV_Interrupt, h]

/-- `SIGF_Interrupt` never touches the power-mode table: completing a frame
does not release any block. -/
theorem SIGF_Interrupt_sleep (st : LeuartState) :
    (SIGF_Interrupt st).sleep = st.sleep := by
  cases h : st.lePayload.rx_state <;> simp [SIGF_Interrupt, h]

/-- One receive interrupt service never touches the power-mode table. -/
theorem rxIrqStep_sleep (st : LeuartState) : (rxIrqStep st).sleep = st.sleep := by
  simp only [rxIrqStep]
  split
  · rw [SIGF_Interrupt_sleep]
    split
    · rw [RXDATAV_Interrupt_sleep]
      split
      · rw [STARTF_Interrupt_sleep]
      · rfl
    · split
      · rw [STARTF_Interrupt_sleep]
      · rfl
  · split
    · rw [RXDATAV_Interrupt_sleep]
      split
      · rw [STARTF_Interrupt_sleep]
      · rfl
    · split
      · rw [STARTF_Interrupt_sleep]
      · rfl

/-- The receive interrupt service loop never touches the power-mode table. -/
theorem rxIrqLoop_sleep (fuel : Nat) : ∀ st : LeuartState,
    (rxIrqLoop fuel st).sleep = st.sleep := by
  induction fuel with
  | zero => intro st; rfl
  | succ f ih =>
      intro st
      unfold rxIrqLoop
      split
      · rw [ih (rxIrqStep st), rxIrqStep_sleep]
      · rfl

/-- Receiving a byte never touches the power-mode table. -/
theorem feedByte_sleep (st : LeuartState) (b : Nat) :
    (feedByte st b).sleep = st.sleep := by
  unfold feedByte
  split
  · rfl
  · split
    · rw [rxIrqLoop_sleep]
    · split
      · rw [rxIrqLoop_sleep]
      · rw [rxIrqLoop_sleep]

/-- Receiving any byte sequence never touches the power-mode table. -/
theorem leuartFeed_sleep (bytes : List Nat) : ∀ st : LeuartState,
    (leuartFeed st bytes).sleep = st.sleep := by
  induction bytes with
  | nil => intro st; rfl
  | cons b rest ih =>
      intro st
      show (leuartFeed (feedByte st b) rest).sleep = st.sleep
      rw [ih (feedByte st b), feedByte_sleep]

/-- Counterexample to claim C7 as stated: after a complete frame reception the
stop-marker service has posted the rx-done terminal event, yet the LEUART_EM
block taken when the receiver was opened is still held -- the count at energy
mode 3 is 1, not 0. -/
theorem power_block_counterexample :
    (leuartFeed (leuart_open_state [0, 0, 0, 0, 0])
        [35, 65, 66, 67, 63]).events = [LEUART_RX_EVT] ∧
    (leuartFeed (leuart_open_state [0, 0, 0, 0, 0])
        [35, 65, 66, 67, 63]).sleep = [0, 0, 0, 1, 0] ∧
    [0, 0, 0, 1, 0] ≠ ([0, 0, 0, 0, 0] : List Nat) := by
  refine ⟨by decide, by decide, by decide⟩

/-- Claim C7 (amended): the bus engine and the link transmitter acquire and
release power-mode blocks in matched pairs -- `I2C_Start` blocks EM2 and the
bus-stop service releases exactly it; `leuart_start` blocks EM3, the block is
still held while TXBL drains the string, and the transmission-complete
service releases exactly it.  The link receiver instead blocks EM3 once when
it is opened and never releases it: no amount of received bytes (in
particular not the stop-marker terminal event) changes the power-mode table
after the open. -/
theorem power_block_pairing (dev cmd d0 b1 b2 n : Nat) (t : List Nat)
    (st0 : LeuartState) (s bytes : List Nat)
    (ht2 : I2C_EM_BLOCK < t.length) (ht3 : LEUART_EM < t.length)
    (hs3 : LEUART_EM < st0.sleep.length) (hf : st0.fatal = false) :
    (I2C_Start dev 2 cmd d0 t).sleep.getD I2C_EM_BLOCK 0 =
      t.getD I2C_EM_BLOCK 0 + 1 ∧
    (i2cRun (I2C_Start dev 2 cmd d0 t)
        [I2CSignal.ack, I2CSignal.ack, I2CSignal.nack, I2CSignal.ack,
         I2CSignal.rxdatav b1, I2CSignal.rxdatav b2]).sleep =
      sleep_block_mode t I2C_EM_BLOCK ∧
    (i2cRun (I2C_Start dev 2 cmd d0 t)
        [I2CSignal.ack, I2CSignal.ack, I2CSignal.nack, I2CSignal.ack,
         I2CSignal.rxdatav b1, I2CSignal.rxdatav b2, I2CSignal.mstop]).sleep = t ∧
    (leuart_start st0 s n).sleep.getD LEUART_EM 0 =
      st0.sleep.getD LEUART_EM 0 + 1 ∧
    (txPump (n + 1) (leuart_start st0 s n)).sleep =
      sleep_block_mode st0.sleep LEUART_EM ∧
    (txFinish (txPump (n + 1) (leuart_start st0 s n))).sleep = st0.sleep ∧
    (txFinish (txPump (n + 1) (leuart_start st0 s n))).events =
      st0.events ++ [LEUART_TX_EVT] ∧
    (txFinish (txPump (n + 1) (leuart_start st0 s n))).lePayload.txbusy = false ∧
    (leuart_open_state t).sleep.getD LEUART_EM 0 = t.getD LEUART_EM 0 + 1 ∧
    (leuartFeed (leuart_open_state t) bytes).sleep =
      sleep_block_mode t LEUART_EM := by
  have hi2c1 : (I2C_Start dev 2 cmd d0 t).sleep = sleep_block_mode t I2C_EM_BLOCK :=
    rfl
  have hi2c6 : (i2cRun (I2C_Start dev 2 cmd d0 t)
      [I2CSignal.ack, I2CSignal.ack, I2CSignal.nack, I2CSignal.ack,
       I2CSignal.rxdatav b1, I2CSignal.rxdatav b2]).sleep =
      sleep_block_mode t I2C_EM_BLOCK := rfl
  have hi2c7 : (i2cRun (I2C_Start dev 2 cmd d0 t)
      [I2CSignal.ack, I2CSignal.ack, I2CSignal.nack, I2CSignal.ack,
       I2CSignal.rxdatav b1, I2CSignal.rxdatav b2, I2CSignal.mstop]).sleep =
      sleep_unblock_mode (sleep_block_mode t I2C_EM_BLOCK) I2C_EM_BLOCK := rfl
  have hA := txPump_drains (n + 1) (leuart_start st0 s n) rfl rfl
    (by exact hf) (by exact Nat.le_succ n) (by omega)
  obtain ⟨a1, a2, a3, a4, a5, a6, a7⟩ := hA
  have hfin : txFinish (txPump (n + 1) (leuart_start st0 s n)) =
      TXC_Interrupt (txPump (n + 1) (leuart_start st0 s n)) := by
    unfold txFinish
    rw [a6, a7]
    rfl
  have htxc1 : (TXC_Interrupt (txPump (n + 1) (leuart_start st0 s n))).sleep =
      sleep_unblock_mode (txPump (n + 1) (leuart_start st0 s n)).sleep LEUART_EM := by
    simp [TXC_Interrupt, a4]
  have htxc2 : (TXC_Interrupt (txPump (n + 1) (leuart_start st0 s n))).events =
      (txPump (n + 1) (leuart_start st0 s n)).events ++ [LEUART_TX_EVT] := by
    simp [TXC_Interrupt, a4]
  have htxc3 : (TXC_Interrupt
      (txPump (n + 1) (leuart_start st0 s n))).lePayload.txbusy = false := by
    simp [TXC_Interrupt, a4]
  have hstartsleep : (leuart_start st0 s n).sleep =
      sleep_block_mode st0.sleep LEUART_EM := rfl
  refine ⟨?_, hi2c6, ?_, ?_, ?_, ?_, ?_, ?_, ?_, ?_⟩
  · rw [hi2c1]
    exact getD_set_self t I2C_EM_BLOCK _ ht2
  · rw [hi2c7]
    exact sleep_unblock_block t I2C_EM_BLOCK ht2
  · rw [hstartsleep]
    exact getD_set_self st0.sleep LEUART_EM _ hs3
  · rw [a1, hstartsleep]
  · rw [hfin, htxc1, a1, hstartsleep]
    exact sleep_unblock_block st0.sleep LEUART_EM hs3
  · rw [hfin, htxc2, a2]
    rfl
  · rw [hfin, htxc3]
  · exact getD_set_self t LEUART_EM _ ht3
  · rw [leuartFeed_sleep]
    rfl

/-- Witness for the amended C7 at concrete inputs. -/
theorem power_block_pairing_witness :
    (I2C_Start 64 2 243 0 [0, 0, 0, 0, 0]).sleep.getD I2C_EM_BLOCK 0 =
      [0, 0, 0, 0, 0].getD I2C_EM_BLOCK 0 + 1 ∧
    (i2cRun (I2C_Start 64 2 243 0 [0, 0, 0, 0, 0])
        [I2CSignal.ack, I2CSignal.ack, I2CSignal.nack, I2CSignal.ack,
         I2CSignal.rxdatav 5, I2CSignal.rxdatav 6]).sleep =
      sleep_block_mode [0, 0, 0, 0, 0] I2C_EM_BLOCK ∧
    (i2cRun (I2C_Start 64 2 243 0 [0, 0, 0, 0, 0])
        [I2CSignal.ack, I2CSignal.ack, I2CSignal.nack, I2CSignal.ack,
         I2CSignal.rxdatav 5, I2CSignal.rxdatav 6, I2CSignal.mstop]).sleep =
      [0, 0, 0, 0, 0] ∧
    (leuart_start (leuart_open_state [0, 0, 0, 0, 0]) [72, 73] 2).sleep.getD
        LEUART_EM 0 =
      (leuart_open_state [0, 0, 0, 0, 0]).sleep.getD LEUART_EM 0 + 1 ∧
    (txPump (2 + 1) (leuart_start (leuart_open_state [0, 0, 0, 0, 0])
        [72, 73] 2)).sleep =
      sleep_block_mode (leuart_open_state [0, 0, 0, 0, 0]).sleep LEUART_EM ∧
    (txFinish (txPump (2 + 1) (leuart_start (leuart_open_state [0, 0, 0, 0, 0])
        [72, 73] 2))).sleep = (leuart_open_state [0, 0, 0, 0, 0]).sleep ∧
    (txFinish (txPump (2 + 1) (leuart_start (leuart_open_state [0, 0, 0, 0, 0])
        [72, 73] 2))).events =
      (leuart_open_state [0, 0, 0, 0, 0]).events ++ [LEUART_TX_EVT] ∧
    (txFinish (txPump (2 + 1) (leuart_start (leuart_open_state [0, 0, 0, 0, 0])
        [72, 73] 2))).lePayload.txbusy = false ∧
    (leuart_open_state [0, 0, 0, 0, 0]).sleep.getD LEUART_EM 0 =
      [0, 0, 0, 0, 0].getD LEUART_EM 0 + 1 ∧
    (leuartFeed (leuart_open_state [0, 0, 0, 0, 0]) [35, 65, 66, 67, 63]).sleep =
      sleep_block_mode [0, 0, 0, 0, 0] LEUART_EM :=
  power_block_pairing 64 243 0 5 6 2 [0, 0, 0, 0, 0]
    (leuart_open_state [0, 0, 0, 0, 0]) [72, 73] [35, 65, 66, 67, 63]
    (by decide) (by decide) (by decide) (by decide)

end Thermo
